import Mathlib

/-!
Verification of the gem5-DIT out-of-order CPU optimizations: the
Computation Simplifier (src/cpu/o3/comp_simplifier.cc) and the Load Value
Predictor (src/cpu/o3/lvp.cc), shallowly embedded as pure Lean functions.
Register values (RegVal, uint64_t in the source) are modelled as Nat;
where wrap-around matters it appears as an explicit mod 2 ^ 64.
-/

/-! ## Computation Simplifier (comp_simplifier.cc / comp_simplifier.hh) -/

/-- Operation classes relevant to CompSimplifier::trySimplify: the source
compares inst->opClass() against IntMultOp and IntDivOp; every other class
is rejected. -/
inductive OpClass
  | IntMultOp
  | IntDivOp
  | OtherOp
deriving DecidableEq

/-- Register classes as seen through PhysRegId::classValue(). -/
inductive RegClass
  | IntRegClass
  | CCRegClass
  | FloatRegClass
  | InvalidRegClass
deriving DecidableEq

/-- View of one source operand of a dynamic instruction: whether its
architectural index is ArmISA::cc_reg::Dit, the class of its renamed
physical register, and the value cpu->getReg would return for it. -/
structure SrcOp where
  isDit : Bool
  cls : RegClass
  value : Nat
deriving DecidableEq

/-- View of a destination operand: class and always-ready flag of the
renamed destination register. -/
structure DestOp where
  cls : RegClass
  alwaysReady : Bool
deriving DecidableEq

/-- The part of a DynInst that trySimplify consults. -/
structure InstView where
  opClass : OpClass
  srcRegs : List SrcOp
  destRegs : List DestOp
  seqNum : Nat
  pc : Nat
deriving DecidableEq

/-- The statistics counters of CompSimplifier::CompSimplifierStats touched
by trySimplify. -/
structure CompStats where
  simplified : Nat
  candidates : Nat
  multByZero : Nat
  multByOne : Nat
  divOfZero : Nat
  divByOne : Nat
  ditSuppressed : Nat
deriving DecidableEq

/-- Outcome of a trySimplify call: either a normal return carrying the
boolean return value, the final contents of the result out-parameter and
the updated statistics, or the fatal abort of panic_if, carrying the
sequence number and program counter printed in the diagnostic. -/
inductive SimpOutcome
  | ok (simplified : Bool) (result : Nat) (stats : CompStats)
  | fatal (seqNum : Nat) (pc : Nat)
deriving DecidableEq

/-- The DIT scan of trySimplify: walk the source operands in order and
stop at the first whose architectural index is the Dit condition-code
register (the loop breaks on first match). -/
def findDit (srcs : List SrcOp) : Option SrcOp :=
  srcs.find? (fun s => s.isDit)

/-- The integer-source scan of trySimplify: keep the source operands whose
renamed register is of IntRegClass and not InvalidRegClass, in order. The
source requires exactly two such operands and uses the first two. -/
def intSrcs (srcs : List SrcOp) : List SrcOp :=
  srcs.filter (fun s =>
    decide (s.cls = RegClass.IntRegClass ∧ ¬ s.cls = RegClass.InvalidRegClass))

/-- CompSimplifier::trySimplify, embedded. `enabled` is the simplifier's
constructor parameter, `result0` the value the caller's result variable
holds on entry (it is an out-parameter the source writes only on the five
simplifying branches), `st` the statistics on entry. -/
def trySimplify (enabled : Bool) (inst : InstView) (result0 : Nat)
    (st : CompStats) : SimpOutcome :=
  if enabled = false then .ok false result0 st
  else if ¬ (inst.opClass = OpClass.IntMultOp ∨ inst.opClass = OpClass.IntDivOp) then
    .ok false result0 st
  else
    match findDit inst.srcRegs with
    | none => .fatal inst.seqNum inst.pc
    | some d =>
      if ¬ d.value = 0 then
        .ok false result0 { st with ditSuppressed := st.ditSuppressed + 1 }
      else
        match inst.destRegs with
        | [] => .ok false result0 st
        | dst :: _ =>
          if ¬ dst.cls = RegClass.IntRegClass ∨ dst.alwaysReady = true then
            .ok false result0 st
          else
            match intSrcs inst.srcRegs with
            | [s0, s1] =>
              let st1 := { st with candidates := st.candidates + 1 }
              let a := s0.value
              let b := s1.value
              if inst.opClass = OpClass.IntMultOp then
                if a = 0 ∨ b = 0 then
                  .ok true 0 { st1 with simplified := st1.simplified + 1, multByZero := st1.multByZero + 1 }
                else if a = 1 then
                  .ok true b { st1 with simplified := st1.simplified + 1, multByOne := st1.multByOne + 1 }
                else if b = 1 then
                  .ok true a { st1 with simplified := st1.simplified + 1, multByOne := st1.multByOne + 1 }
                else .ok false result0 st1
              else
                if a = 0 ∧ ¬ b = 0 then
                  .ok true 0 { st1 with simplified := st1.simplified + 1, divOfZero := st1.divOfZero + 1 }
                else if b = 1 then
                  .ok true a { st1 with simplified := st1.simplified + 1, divByOne := st1.divByOne + 1 }
                else .ok false result0 st1
            | _ => .ok false result0 st

/-- Projection of a trySimplify outcome to the simplification result: the
result value when the call returned true, none otherwise. -/
def simplifiedResult : SimpOutcome → Option Nat
  | .ok true r _ => some r
  | _ => none

/-! ## Load Value Predictor (lvp.cc / lvp.hh) -/

/-- Entry in the LVP prediction table (struct LVPEntry in lvp.hh). The
confidence member is a SatCounter8 constructed with 3 bits and initial
value 0 in the source. -/
structure LVPEntry where
  tag : Nat
  value : Nat
  confidence : Nat
  valid : Bool
deriving DecidableEq

/-- A default-constructed LVPEntry: tag 0, value 0, confidence 0, invalid. -/
def LVPEntry.init : LVPEntry :=
  { tag := 0, value := 0, confidence := 0, valid := false }

/-- History entry tracking an in-flight value prediction (struct
LVPHistory in lvp.hh). -/
structure LVPHistory where
  seqNum : Nat
  pc : Nat
  tid : Nat
  predictedValue : Nat
  predicted : Bool
deriving DecidableEq

/-- The statistics counters of LoadValuePredictor::LVPStats. -/
structure LVPStats where
  predictions : Nat
  predCorrect : Nat
  predIncorrect : Nat
  predNotConfident : Nat
  squashes : Nat
deriving DecidableEq

/-- Modelled from the spec: the saturating unsigned counter of
base/sat_counter.hh (not under src/), with bit-width `bits`: increment is
a no-op at the maximum value 2 ^ bits - 1, otherwise adds one. The LVP
entry counters are constructed with 3 bits and initial value 0, so reset
returns them to 0. -/
def satIncrement (bits c : Nat) : Nat :=
  if c < 2 ^ bits - 1 then c + 1 else c

/-- Modelled from the spec: the fixed count of per-thread history queues
(MaxThreads of cpu/o3/limits.hh, not under src/); any value at least the
number of hardware thread contexts works, no claim depends on it. -/
def maxThreads : Nat := 4

/-- Modelled from the spec: the power-of-two check of base/intmath.hh
(not under src/) used by the fatal_if in the LVP constructor. -/
def isPowerOf2 (n : Nat) : Prop :=
  ¬ n = 0 ∧ Nat.land n (n - 1) = 0

instance (n : Nat) : Decidable (isPowerOf2 n) := by
  unfold isPowerOf2; infer_instance

/-- State and configuration of a LoadValuePredictor. The configuration
fields are fixed at construction; table, history and stats mutate. -/
structure LVP where
  tableSize : Nat
  indexMask : Nat
  confidenceThreshold : Nat
  confidenceBits : Nat
  enabled : Bool
  table : List LVPEntry
  history : List (List LVPHistory)
  stats : LVPStats
deriving DecidableEq

/-- The LoadValuePredictor constructor: indexMask is tableSize - 1, the
table holds tableSize default-constructed entries, the per-thread history
queues start empty; a non-power-of-two tableSize is a fatal configuration
error, modelled as none. -/
def mkLVP (tableSize confidenceThreshold confidenceBits : Nat)
    (enabled : Bool) : Option LVP :=
  if isPowerOf2 tableSize then
    some { tableSize := tableSize, indexMask := tableSize - 1,
           confidenceThreshold := confidenceThreshold,
           confidenceBits := confidenceBits, enabled := enabled,
           table := List.replicate tableSize LVPEntry.init,
           history := List.replicate maxThreads [],
           stats := ⟨0, 0, 0, 0, 0⟩ }
  else none

/-- LoadValuePredictor::getIndex: shift the pc right by 2 (instruction
alignment) and mask with indexMask. -/
def LVP.getIndex (s : LVP) (pc : Nat) : Nat :=
  Nat.land (Nat.shiftRight pc 2) s.indexMask

/-- LoadValuePredictor::getTag: the tag is the full pc. -/
def LVP.getTag (s : LVP) (pc : Nat) : Nat := pc

/-- LoadValuePredictor::predict. Returns the predicted value (none when
no confident prediction is made) together with the successor state; only
statistics change, never the table or the history. The tid argument is
present in the source signature but unused there. -/
def LVP.predict (s : LVP) (pc : Nat) (tid : Nat) : Option Nat × LVP :=
  if s.enabled = false then (none, s)
  else
    let entry := s.table.getD (s.getIndex pc) LVPEntry.init
    if entry.valid = true ∧ entry.tag = s.getTag pc ∧
        s.confidenceThreshold ≤ entry.confidence then
      (some entry.value,
       { s with stats := { s.stats with predictions := s.stats.predictions + 1 } })
    else
      (none,
       { s with stats := { s.stats with predNotConfident := s.stats.predNotConfident + 1 } })

/-- LoadValuePredictor::update: on a valid tag-matching slot, a matching
value increments the 3-bit confidence counter and a differing value stores
the new value and resets confidence; otherwise a fresh entry is installed
with confidence reset. -/
def LVP.update (s : LVP) (pc value : Nat) : LVP :=
  let idx := s.getIndex pc
  let entry := s.table.getD idx LVPEntry.init
  let entry2 :=
    if entry.valid = true ∧ entry.tag = s.getTag pc then
      if entry.value = value then
        { entry with confidence := satIncrement 3 entry.confidence }
      else
        { entry with value := value, confidence := 0 }
    else
      { tag := s.getTag pc, value := value, confidence := 0, valid := true }
  { s with table := s.table.set idx entry2 }

/-- Iterated training: n consecutive update calls with the same pc and
value. -/
def LVP.updateN (s : LVP) (pc value : Nat) : Nat → LVP
  | 0 => s
  | n + 1 => (s.updateN pc value n).update pc value

/-- The scan of LoadValuePredictor::validate: walk the thread history
queues in order and return the first entry with the given sequence number
and predicted set. -/
def historyFind (qs : List (List LVPHistory)) (seqNum : Nat) :
    Option LVPHistory :=
  match qs with
  | [] => none
  | q :: rest =>
    match q.find? (fun h => decide (h.seqNum = seqNum ∧ h.predicted = true)) with
    | some h => some h
    | none => historyFind rest seqNum

/-- LoadValuePredictor::validate: compare the found entry's predicted
value with the actual one (updating only statistics, removing nothing);
with no matching entry, return true and leave the state untouched. -/
def LVP.validate (s : LVP) (seqNum actual : Nat) : Bool × LVP :=
  match historyFind s.history seqNum with
  | some h =>
    if h.predictedValue = actual then
      (true, { s with stats := { s.stats with predCorrect := s.stats.predCorrect + 1 } })
    else
      (false, { s with stats := { s.stats with predIncorrect := s.stats.predIncorrect + 1, squashes := s.stats.squashes + 1 } })
  | none => (true, s)

/-- The loop of LoadValuePredictor::squash: pop the back of the queue
while it is non-empty and the back entry's seqNum is strictly greater
than the squash point. -/
def squashQueue (sq : Nat) (q : List LVPHistory) : List LVPHistory :=
  (q.reverse.dropWhile (fun h => decide (sq < h.seqNum))).reverse

/-- LoadValuePredictor::squash on the full state: only thread tid's queue
is rewritten. -/
def LVP.squash (s : LVP) (sq : Nat) (tid : Nat) : LVP :=
  { s with history := s.history.set tid (squashQueue sq (s.history.getD tid [])) }

/-- LoadValuePredictor::commitEntry: pop the head of thread tid's queue
exactly when the queue is non-empty and the head's seqNum equals the
committed one; otherwise do nothing. -/
def LVP.commitEntry (s : LVP) (seqNum : Nat) (tid : Nat) : LVP :=
  match s.history.getD tid [] with
  | [] => s
  | h :: t =>
    if h.seqNum = seqNum then { s with history := s.history.set tid t }
    else s

/-- LoadValuePredictor::addHistory: append to the tail of the entry's
thread queue. -/
def LVP.addHistory (s : LVP) (e : LVPHistory) : LVP :=
  { s with history := s.history.set e.tid (s.history.getD e.tid [] ++ [e]) }

/-! ## Generic list helper lemmas -/

theorem list_getD_set_self {α : Type} (l : List α) (n : Nat) (a d : α) :
    (l.set n a).getD n d = if n < l.length then a else d := by
  induction l generalizing n with
  | nil => simp
  | cons x xs ih =>
    cases n with
    | zero => simp
    | succ m =>
      rw [List.set_cons_succ, List.getD_cons_succ, ih m]
      simp [Nat.succ_lt_succ_iff]

theorem list_getD_set_ne {α : Type} (l : List α) (m n : Nat) (a d : α)
    (h : ¬ m = n) : (l.set n a).getD m d = l.getD m d := by
  induction l generalizing m n with
  | nil => simp
  | cons x xs ih =>
    cases n with
    | zero =>
      cases m with
      | zero => exact absurd rfl h
      | succ k => simp
    | succ n1 =>
      cases m with
      | zero => simp
      | succ k =>
        rw [List.set_cons_succ, List.getD_cons_succ, List.getD_cons_succ]
        exact ih k n1 (fun hk => h (by rw [hk]))

theorem list_set_getD_self {α : Type} (l : List α) (n : Nat) (d : α) :
    l.set n (l.getD n d) = l := by
  induction l generalizing n with
  | nil => simp
  | cons x xs ih =>
    cases n with
    | zero => simp
    | succ m => rw [List.getD_cons_succ, List.set_cons_succ, ih m]

/-! ## Squash loop lemmas -/

theorem dropWhile_desc_eq_filter (sq : Nat) (r : List LVPHistory)
    (hd : List.Pairwise (fun x y => y.seqNum < x.seqNum) r) :
    r.dropWhile (fun h => decide (sq < h.seqNum)) =
      r.filter (fun h => decide (h.seqNum ≤ sq)) := by
  induction r with
  | nil => rfl
  | cons x xs ih =>
    rcases List.pairwise_cons.mp hd with ⟨hx, hxs⟩
    by_cases hcase : sq < x.seqNum
    · rw [List.dropWhile_cons, List.filter_cons]
      simp [hcase, Nat.not_le.mpr hcase, ih hxs]
    · rw [List.dropWhile_cons, List.filter_cons]
      have hle : x.seqNum ≤ sq := Nat.not_lt.mp hcase
      have hrest : xs.filter (fun h => decide (h.seqNum ≤ sq)) = xs :=
        List.filter_eq_self.mpr (fun a ha => by
          simpa using Nat.le_trans (Nat.le_of_lt (hx a ha)) hle)
      simp [hcase, hle, hrest]

theorem squashQueue_eq_filter (sq : Nat) (q : List LVPHistory)
    (hs : List.Pairwise (fun x y => x.seqNum < y.seqNum) q) :
    squashQueue sq q = q.filter (fun h => decide (h.seqNum ≤ sq)) := by
  unfold squashQueue
  rw [dropWhile_desc_eq_filter sq q.reverse (List.pairwise_reverse.mpr hs),
    List.filter_reverse, List.reverse_reverse]

theorem squashQueue_eq_self (sq : Nat) (q : List LVPHistory)
    (h : ∀ x ∈ q, x.seqNum ≤ sq) : squashQueue sq q = q := by
  unfold squashQueue
  have hdrop : q.reverse.dropWhile (fun h => decide (sq < h.seqNum)) = q.reverse := by
    cases hq : q.reverse with
    | nil => rfl
    | cons x xs =>
      have hx : x ∈ q := List.mem_reverse.mp (by rw [hq]; exact List.mem_cons_self x xs)
      rw [List.dropWhile_cons]
      simp [Nat.not_lt.mpr (h x hx)]
  rw [hdrop, List.reverse_reverse]

/-! ## Computation Simplifier theorems -/

/-- C1: on an enabled simplifier, for any integer multiply/divide
instruction whose DIT flag source operand (the first one the scan finds)
resolves to a non-zero value, trySimplify returns not-simplified, leaves
the result out-parameter untouched and increments only the ditSuppressed
counter — for all values of the other source operands. -/
theorem trySimplify_dit_nonzero_suppresses (inst : InstView) (r0 : Nat)
    (st : CompStats) (d : SrcOp)
    (hop : inst.opClass = OpClass.IntMultOp ∨ inst.opClass = OpClass.IntDivOp)
    (hf : findDit inst.srcRegs = some d) (hv : ¬ d.value = 0) :
    trySimplify true inst r0 st =
      SimpOutcome.ok false r0 { st with ditSuppressed := st.ditSuppressed + 1 } := by
  rcases hop with h | h <;> simp [trySimplify, h, hf, hv]

/-- Witness for C1: a multiply with operands 7 and 0 (a trivial pair) and
DIT = 1 is suppressed, with only the suppression counter bumped. -/
theorem trySimplify_dit_nonzero_suppresses_witness :
    trySimplify true
      { opClass := OpClass.IntMultOp,
        srcRegs := [⟨false, RegClass.IntRegClass, 7⟩,
                    ⟨false, RegClass.IntRegClass, 0⟩,
                    ⟨true, RegClass.CCRegClass, 1⟩],
        destRegs := [⟨RegClass.IntRegClass, false⟩], seqNum := 5, pc := 64 }
      99 ⟨0, 0, 0, 0, 0, 0, 0⟩
    = SimpOutcome.ok false 99 ⟨0, 0, 0, 0, 0, 0, 1⟩ :=
  trySimplify_dit_nonzero_suppresses _ 99 ⟨0, 0, 0, 0, 0, 0, 0⟩
    ⟨true, RegClass.CCRegClass, 1⟩ (Or.inl rfl) rfl (by decide)

/-- C9: trySimplify aborts fatally exactly when it is enabled, the
operation class is integer multiply or divide, and no DIT source operand
is present; the diagnostic carries the instruction's sequence number and
program counter. In particular, whenever a DIT operand is attached (the
decode-stage contract), the abort branch is unreachable. -/
theorem trySimplify_fatal_iff_missing_dit (e : Bool) (inst : InstView)
    (r0 : Nat) (st : CompStats) (sn pcv : Nat) :
    trySimplify e inst r0 st = SimpOutcome.fatal sn pcv ↔
      (e = true ∧
       (inst.opClass = OpClass.IntMultOp ∨ inst.opClass = OpClass.IntDivOp) ∧
       findDit inst.srcRegs = none ∧ sn = inst.seqNum ∧ pcv = inst.pc) := by
  constructor
  · intro h
    unfold trySimplify at h
    repeat' split at h
    all_goals try simp_all
    all_goals repeat' split at h
    all_goals try simp_all
    all_goals tauto
  · rintro ⟨he, hop, hfd, hsn, hpc⟩
    subst he; subst hsn; subst hpc
    rcases hop with h | h <;> simp [trySimplify, h, hfd]

/-- C10: whenever trySimplify returns not-simplified — for any reason —
the caller's result variable still holds the value it had on entry; the
out-parameter is written only on the five simplifying branches. -/
theorem trySimplify_result_untouched_when_not_simplified (e : Bool)
    (inst : InstView) (r0 : Nat) (st : CompStats) (r : Nat) (st2 : CompStats)
    (h : trySimplify e inst r0 st = SimpOutcome.ok false r st2) : r = r0 := by
  unfold trySimplify at h
  repeat' split at h
  all_goals try simp_all
  all_goals repeat' split at h
  all_goals simp_all

/-- Witness for C10: a non-trivial enabled multiply (operands 42 and 7,
DIT clear) returns not-simplified with the result variable still holding
its entry value 123. -/
theorem trySimplify_result_untouched_witness :
    trySimplify true
      { opClass := OpClass.IntMultOp,
        srcRegs := [⟨false, RegClass.IntRegClass, 42⟩,
                    ⟨false, RegClass.IntRegClass, 7⟩,
                    ⟨true, RegClass.CCRegClass, 0⟩],
        destRegs := [⟨RegClass.IntRegClass, false⟩], seqNum := 1, pc := 4 }
      123 ⟨0, 0, 0, 0, 0, 0, 0⟩
    = SimpOutcome.ok false 123 ⟨0, 1, 0, 0, 0, 0, 0⟩ ∧ (123 : Nat) = 123 :=
  ⟨by decide,
   trySimplify_result_untouched_when_not_simplified true
    { opClass := OpClass.IntMultOp,
      srcRegs := [⟨false, RegClass.IntRegClass, 42⟩,
                  ⟨false, RegClass.IntRegClass, 7⟩,
                  ⟨true, RegClass.CCRegClass, 0⟩],
      destRegs := [⟨RegClass.IntRegClass, false⟩], seqNum := 1, pc := 4 }
    123 ⟨0, 0, 0, 0, 0, 0, 0⟩ 123 ⟨0, 1, 0, 0, 0, 0, 0⟩ (by decide)⟩

/-- C3: for an enabled, eligible two-integer-operand multiply/divide with
the DIT flag clear, trySimplify simplifies exactly in the five trivial
cases, each time with a result equal to the true 64-bit product or
quotient, and declines on every other operand pair. -/
theorem trySimplify_trivial_cases_exact (inst : InstView) (r0 : Nat)
    (st : CompStats) (d : SrcOp) (dst : DestOp) (rest : List DestOp)
    (s0 s1 : SrcOp)
    (hf : findDit inst.srcRegs = some d) (hdv : d.value = 0)
    (hdest : inst.destRegs = dst :: rest)
    (hcls : dst.cls = RegClass.IntRegClass) (har : dst.alwaysReady = false)
    (hsrc : intSrcs inst.srcRegs = [s0, s1])
    (ha : s0.value < 2 ^ 64) (hb : s1.value < 2 ^ 64) :
    (inst.opClass = OpClass.IntMultOp →
      simplifiedResult (trySimplify true inst r0 st) =
        (if s0.value = 0 ∨ s1.value = 0 ∨ s0.value = 1 ∨ s1.value = 1
         then some (s0.value * s1.value % 2 ^ 64) else none))
    ∧ (inst.opClass = OpClass.IntDivOp →
      simplifiedResult (trySimplify true inst r0 st) =
        (if (s0.value = 0 ∧ ¬ s1.value = 0) ∨ s1.value = 1
         then some (s0.value / s1.value) else none)) := by
  constructor
  · intro hop
    simp only [trySimplify, hop, hf, hdest, hsrc]
    by_cases h0 : s0.value = 0 <;> by_cases h1 : s1.value = 0 <;>
      by_cases h2 : s0.value = 1 <;> by_cases h3 : s1.value = 1 <;>
      simp_all [simplifiedResult, hcls, har, Nat.mod_eq_of_lt ha, Nat.mod_eq_of_lt hb]
    all_goals omega
  · intro hop
    simp only [trySimplify, hop, hf, hdest, hsrc]
    by_cases h0 : s0.value = 0 <;> by_cases h1 : s1.value = 0 <;>
      by_cases h3 : s1.value = 1 <;>
      simp_all [simplifiedResult, hcls, har, Nat.div_one]

/-- Witness for C3: a multiply of 42 by 7 — a non-trivial pair — is not
simplified. -/
theorem trySimplify_trivial_cases_exact_witness :
    simplifiedResult (trySimplify true
      { opClass := OpClass.IntMultOp,
        srcRegs := [⟨false, RegClass.IntRegClass, 42⟩,
                    ⟨false, RegClass.IntRegClass, 7⟩,
                    ⟨true, RegClass.CCRegClass, 0⟩],
        destRegs := [⟨RegClass.IntRegClass, false⟩], seqNum := 1, pc := 4 }
      0 ⟨0, 0, 0, 0, 0, 0, 0⟩) = none := by
  have h := (trySimplify_trivial_cases_exact
      { opClass := OpClass.IntMultOp,
        srcRegs := [⟨false, RegClass.IntRegClass, 42⟩,
                    ⟨false, RegClass.IntRegClass, 7⟩,
                    ⟨true, RegClass.CCRegClass, 0⟩],
        destRegs := [⟨RegClass.IntRegClass, false⟩], seqNum := 1, pc := 4 }
      0 ⟨0, 0, 0, 0, 0, 0, 0⟩
      ⟨true, RegClass.CCRegClass, 0⟩ ⟨RegClass.IntRegClass, false⟩ []
      ⟨false, RegClass.IntRegClass, 42⟩ ⟨false, RegClass.IntRegClass, 7⟩
      rfl rfl rfl rfl rfl (by decide) (by decide) (by decide)).1 rfl
  simpa using h

/-! ## Load Value Predictor theorems -/

/-- C2 counterexample: with tableSize 8 and threshold 2, the first
update(0x100, 5) installs the entry with confidence 0 and the second only
raises it to 1, so predict(0x100, tid) still returns no prediction after
two updates — the claimed (true, 5) outcome is false. -/
theorem lvp_two_updates_no_prediction_cex :
    (mkLVP 8 2 3 true).map (fun s =>
      let s2 := (s.update 0x100 5).update 0x100 5
      ((s2.predict 0x100 0).1, (s2.table.getD 0 LVPEntry.init).confidence))
    = some (none, 1) := by decide

/-- C2 amended: two updates with (0x100, 5) leave confidence at 1, so
predict returns no prediction; a third such update reaches the threshold
2 and predict(0x100, tid) returns value 5; a subsequent update(0x100, 9)
resets confidence to 0, after which predict returns no prediction. -/
theorem lvp_training_scenario_amended :
    (mkLVP 8 2 3 true).map (fun s =>
      let s2 := (s.update 0x100 5).update 0x100 5
      let s3 := s2.update 0x100 5
      let s4 := s3.update 0x100 9
      ((s2.predict 0x100 0).1, (s3.predict 0x100 0).1, (s4.predict 0x100 0).1,
       (s3.table.getD 0 LVPEntry.init).confidence,
       (s4.table.getD 0 LVPEntry.init).confidence))
    = some (none, some 5, none, 2, 0) := by decide

/-- C5: the code contradicts the configurable-width contract. A predictor
constructed with confidenceBits = 4 should saturate its entry counters at
15, but the entries are built with a hard-wired 3-bit counter (the LVPEntry
constructor passes 3, ignoring the confidenceBits parameter), so after 12
matching updates the confidence sits at 7 and a further update is already
a no-op. -/
theorem lvp_confidence_width_hardwired :
    (mkLVP 8 2 4 true).map (fun s =>
      (s.confidenceBits,
       ((s.updateN 0x100 5 12).table.getD 0 LVPEntry.init).confidence,
       ((s.updateN 0x100 5 13).table.getD 0 LVPEntry.init).confidence))
    = some (4, 7, 7) := by decide

/-- After update(pc, w) the slot at pc's index either carries tag pc (all
three write branches leave the tag equal to the full pc) or, when the
index is out of the modelled table's range, reads back as an invalid
default entry. -/
theorem update_slot_tag_or_invalid (s : LVP) (pc w : Nat) :
    ((s.update pc w).table.getD (s.getIndex pc) LVPEntry.init).tag = pc ∨
    ((s.update pc w).table.getD (s.getIndex pc) LVPEntry.init).valid = false := by
  unfold LVP.update LVP.getTag
  simp only []
  rw [list_getD_set_self]
  by_cases hlen : s.getIndex pc < s.table.length
  · rw [if_pos hlen]
    by_cases hA : (s.table.getD (s.getIndex pc) LVPEntry.init).valid = true ∧
        (s.table.getD (s.getIndex pc) LVPEntry.init).tag = pc
    · by_cases hB : (s.table.getD (s.getIndex pc) LVPEntry.init).value = w
      · rw [if_pos hA, if_pos hB]
        exact Or.inl hA.2
      · rw [if_pos hA, if_neg hB]
        exact Or.inl hA.2
    · rw [if_neg hA]
      exact Or.inl rfl
  · rw [if_neg hlen]
    right
    rfl

/-- C4: predict(pc, tid) hits exactly when the predictor is enabled and
the slot at index (pc >> 2) & (tableSize - 1) is valid, carries tag pc,
and has confidence at or above the threshold; predict changes neither the
table nor the history; and after training any pc, a different pc whose
index collides can never read the trained value — the exact tag check
returns no prediction. -/
theorem lvp_predict_iff_and_frame (s : LVP) (pc tid v : Nat)
    (hmask : s.indexMask = s.tableSize - 1) :
    ((s.predict pc tid).1 = some v ↔
      (s.enabled = true ∧
       (s.table.getD (Nat.land (Nat.shiftRight pc 2) (s.tableSize - 1)) LVPEntry.init).valid = true ∧
       (s.table.getD (Nat.land (Nat.shiftRight pc 2) (s.tableSize - 1)) LVPEntry.init).tag = pc ∧
       s.confidenceThreshold ≤ (s.table.getD (Nat.land (Nat.shiftRight pc 2) (s.tableSize - 1)) LVPEntry.init).confidence ∧
       v = (s.table.getD (Nat.land (Nat.shiftRight pc 2) (s.tableSize - 1)) LVPEntry.init).value))
    ∧ ((s.predict pc tid).2.table = s.table ∧ (s.predict pc tid).2.history = s.history)
    ∧ (∀ w pc2 tid2, ¬ pc2 = pc → s.getIndex pc2 = s.getIndex pc →
        ((s.update pc w).predict pc2 tid2).1 = none) := by
  refine ⟨?_, ?_, ?_⟩
  · cases he : s.enabled with
    | false =>
      simp only [LVP.predict, LVP.getIndex, LVP.getTag, hmask, he]
      simp
    | true =>
      simp only [LVP.predict, LVP.getIndex, LVP.getTag, hmask, he]
      rw [if_neg (by simp : ¬ (true : Bool) = false)]
      split_ifs with hcond
      · constructor
        · intro hv
          rcases hcond with ⟨h1, h2, h3⟩
          refine ⟨trivial, h1, h2, h3, ?_⟩
          exact Eq.symm (by simpa using hv)
        · rintro ⟨-, -, -, -, hv⟩
          simp [hv]
      · constructor
        · intro hv
          exact absurd hv (by simp)
        · rintro ⟨-, h1, h2, h3, -⟩
          exact absurd ⟨h1, h2, h3⟩ hcond
  · unfold LVP.predict
    by_cases he : s.enabled = false
    · rw [if_pos he]
      exact ⟨rfl, rfl⟩
    · rw [if_neg he]
      refine ⟨?_, ?_⟩
      · rw [apply_ite (fun p : Option Nat × LVP => p.2.table)]
        simp
      · rw [apply_ite (fun p : Option Nat × LVP => p.2.history)]
        simp
  · intro w pc2 tid2 hne hidx
    have hidx2 : (s.update pc w).getIndex pc2 = s.getIndex pc := by
      unfold LVP.getIndex at hidx ⊢
      exact hidx
    unfold LVP.predict LVP.getTag
    rw [hidx2]
    by_cases he : (s.update pc w).enabled = false
    · rw [if_pos he]
    · rw [if_neg he]
      rcases update_slot_tag_or_invalid s pc w with htag | hval
      · rw [if_neg ?hc1]
        case hc1 =>
          rintro ⟨-, h2, -⟩
          exact hne (htag.symm.trans h2).symm
      · rw [if_neg ?hc2]
        case hc2 =>
          rintro ⟨h1, -, -⟩
          rw [hval] at h1
          exact Bool.noConfusion h1

/-- Witness for C4: on a freshly trained single-entry scenario the
characterization applies; predict leaves the table untouched. -/
theorem lvp_predict_iff_and_frame_witness :
    (((mkLVP 8 2 3 true).getD
        { tableSize := 0, indexMask := 0, confidenceThreshold := 0,
          confidenceBits := 0, enabled := false, table := [], history := [],
          stats := ⟨0, 0, 0, 0, 0⟩ }).predict 0x100 0).2.table
    = ((mkLVP 8 2 3 true).getD
        { tableSize := 0, indexMask := 0, confidenceThreshold := 0,
          confidenceBits := 0, enabled := false, table := [], history := [],
          stats := ⟨0, 0, 0, 0, 0⟩ }).table :=
  (lvp_predict_iff_and_frame _ 0x100 0 5 (by decide)).2.1.1

/-- C6: validate(seqNum, actual) scans all thread queues for an entry
with matching seqNum and predicted set; when one is found it returns
whether the predicted value equals the actual one and removes nothing
from any queue; when none is found (already squashed) it fails open,
returning true and leaving the state untouched. -/
theorem lvp_validate_fail_open (s : LVP) (n a : Nat) :
    (∀ h, historyFind s.history n = some h →
       ((s.validate n a).1 = true ↔ h.predictedValue = a) ∧
       (s.validate n a).2.history = s.history)
    ∧ (historyFind s.history n = none →
       (s.validate n a).1 = true ∧ (s.validate n a).2 = s) := by
  constructor
  · intro h hf
    unfold LVP.validate
    rw [hf]
    by_cases hv : h.predictedValue = a <;> simp [hv]
  · intro hf
    unfold LVP.validate
    rw [hf]
    exact ⟨rfl, rfl⟩

/-- Witness for C6: a predictor whose thread-0 queue holds one predicted
entry for seqNum 10 with value 5 validates correctly against 5 and keeps
its history. -/
theorem lvp_validate_fail_open_witness :
    (({ tableSize := 8, indexMask := 7, confidenceThreshold := 2,
        confidenceBits := 3, enabled := true,
        table := List.replicate 8 LVPEntry.init,
        history := [[⟨10, 0x100, 0, 5, true⟩], [], [], []],
        stats := ⟨0, 0, 0, 0, 0⟩ } : LVP).validate 10 5).1 = true :=
  (((lvp_validate_fail_open
      { tableSize := 8, indexMask := 7, confidenceThreshold := 2,
        confidenceBits := 3, enabled := true,
        table := List.replicate 8 LVPEntry.init,
        history := [[⟨10, 0x100, 0, 5, true⟩], [], [], []],
        stats := ⟨0, 0, 0, 0, 0⟩ } 10 5).1
      ⟨10, 0x100, 0, 5, true⟩ rfl).1).mpr rfl

/-- C7: under the per-thread strict seqNum ordering invariant, squash(sq,
tid) removes exactly the entries with seqNum greater than sq from thread
tid's queue, changes no other thread's queue, leaves the prediction table
and statistics alone, and is a no-op when nothing is eligible. -/
theorem lvp_squash_exact_and_frame (s : LVP) (sq tid : Nat)
    (hsorted : List.Pairwise (fun x y => x.seqNum < y.seqNum)
      (s.history.getD tid [])) :
    ((s.squash sq tid).history.getD tid [] =
       (s.history.getD tid []).filter (fun h => decide (h.seqNum ≤ sq)))
    ∧ (∀ t, ¬ t = tid →
       (s.squash sq tid).history.getD t [] = s.history.getD t [])
    ∧ ((s.squash sq tid).table = s.table ∧ (s.squash sq tid).stats = s.stats)
    ∧ ((∀ h ∈ s.history.getD tid [], h.seqNum ≤ sq) → s.squash sq tid = s) := by
  refine ⟨?_, ?_, ⟨rfl, rfl⟩, ?_⟩
  · unfold LVP.squash
    rw [squashQueue_eq_filter sq _ hsorted]
    by_cases hlen : tid < s.history.length
    · rw [list_getD_set_self]
      rw [if_pos hlen]
    · rw [list_getD_set_self]
      rw [if_neg hlen]
      have hnil : s.history.getD tid [] = [] :=
        List.getD_eq_default _ _ (Nat.le_of_not_lt hlen)
      rw [hnil]
      rfl
  · intro t ht
    unfold LVP.squash
    exact list_getD_set_ne _ _ _ _ _ ht
  · intro hall
    unfold LVP.squash
    rw [squashQueue_eq_self sq _ hall, list_set_getD_self]

/-- Witness for C7: with thread 0 holding predicted entries 10, 11, 12,
squash(10, 0) keeps exactly seqNum 10 and leaves thread 1 alone. -/
theorem lvp_squash_exact_and_frame_witness :
    (({ tableSize := 8, indexMask := 7, confidenceThreshold := 2,
        confidenceBits := 3, enabled := true,
        table := List.replicate 8 LVPEntry.init,
        history := [[⟨10, 0x100, 0, 5, true⟩, ⟨11, 0x104, 0, 6, true⟩,
                     ⟨12, 0x108, 0, 7, true⟩], [], [], []],
        stats := ⟨0, 0, 0, 0, 0⟩ } : LVP).squash 10 0).history.getD 0 []
    = [⟨10, 0x100, 0, 5, true⟩] := by
  have h := (lvp_squash_exact_and_frame
      { tableSize := 8, indexMask := 7, confidenceThreshold := 2,
        confidenceBits := 3, enabled := true,
        table := List.replicate 8 LVPEntry.init,
        history := [[⟨10, 0x100, 0, 5, true⟩, ⟨11, 0x104, 0, 6, true⟩,
                     ⟨12, 0x108, 0, 7, true⟩], [], [], []],
        stats := ⟨0, 0, 0, 0, 0⟩ } 10 0 (by decide)).1
  rw [h]
  decide

/-- C8: commitEntry(seqNum, tid) removes the head entry of thread tid's
queue exactly when the queue is non-empty and that head carries the given
seqNum; the table, the statistics and every other thread's queue are
untouched, and in every other case the whole state is unchanged. -/
theorem lvp_commit_head_only (s : LVP) (n tid : Nat) :
    (∀ h t, s.history.getD tid [] = h :: t →
       (h.seqNum = n →
          (s.commitEntry n tid).history = s.history.set tid t ∧
          (s.commitEntry n tid).table = s.table ∧
          (s.commitEntry n tid).stats = s.stats ∧
          (∀ t2, ¬ t2 = tid →
             (s.commitEntry n tid).history.getD t2 [] = s.history.getD t2 []))
       ∧ (¬ h.seqNum = n → s.commitEntry n tid = s))
    ∧ (s.history.getD tid [] = [] → s.commitEntry n tid = s) := by
  constructor
  · intro h t hq
    constructor
    · intro hs
      unfold LVP.commitEntry
      rw [hq]
      simp only [hs, if_true]
      refine ⟨trivial, trivial, trivial, ?_⟩
      intro t2 ht2
      exact list_getD_set_ne _ _ _ _ _ ht2
    · intro hs
      unfold LVP.commitEntry
      rw [hq]
      simp [hs]
  · intro hq
    unfold LVP.commitEntry
    rw [hq]

/-- Witness for C8: committing seqNum 10 at the head of thread 0's queue
pops exactly that entry. -/
theorem lvp_commit_head_only_witness :
    (({ tableSize := 8, indexMask := 7, confidenceThreshold := 2,
        confidenceBits := 3, enabled := true,
        table := List.replicate 8 LVPEntry.init,
        history := [[⟨10, 0x100, 0, 5, true⟩], [], [], []],
        stats := ⟨0, 0, 0, 0, 0⟩ } : LVP).commitEntry 10 0).history
    = [[], [], [], []] := by
  have h := ((lvp_commit_head_only
      { tableSize := 8, indexMask := 7, confidenceThreshold := 2,
        confidenceBits := 3, enabled := true,
        table := List.replicate 8 LVPEntry.init,
        history := [[⟨10, 0x100, 0, 5, true⟩], [], [], []],
        stats := ⟨0, 0, 0, 0, 0⟩ } 10 0).1
      ⟨10, 0x100, 0, 5, true⟩ [] rfl).1 rfl
  rw [h.1]
  rfl
